import Mathlib

/-!
Verification development for the catalog web application
(vagrant/catalog): a shallow embedding of the persistence layer
(catalog/database.py, class DBManager and the table definitions User,
Category, Item) and of the authorization facade (catalog/content.py,
class ContentManager), together with proofs of the stated properties.

The database state is modelled as three lists of rows plus the
autoincrement counters and a clock supplying the `created` server
default.  Each DBManager method is modelled as a total function on this
state; the body of its `with self._get_session() as session:` block is a
separate `_tx` function returning `Option` (`none` models an exception
raised inside the session: a failing `one()` call, or a UNIQUE /
FOREIGN KEY constraint violation detected at flush or commit time, with
`PRAGMA foreign_keys=ON` enabled for sqlite).  The public wrapper
catches the exception, the rollback in `_get_session` discards the
session, and the wrapper returns the documented sentinel with the state
unchanged.

SQLite's default BINARY collation orders strings by byte value, which
for valid UTF-8 agrees with code-point order; `strLe` below implements
that order directly so that it evaluates by kernel reduction.
-/

/-- One step of the tag stripper: `inTag` records whether the scanner is
inside an HTML tag (between a lower-than and a greater-than bracket). -/
def stripTags (inTag : Bool) : List Char → List Char
  | [] => []
  | c :: rest =>
    if inTag then
      if c = '>' then stripTags false rest else stripTags true rest
    else
      if c = '<' then stripTags true rest else c :: stripTags false rest

/-- Strip all HTML tags from a string.  Models `DBManager._clean`, which
calls `bleach.clean(text, tags=[], strip=True)` from the external
`bleach` library: with an empty tag whitelist and `strip=True` every tag
span is removed and the remaining text kept. -/
def clean (text : String) : String :=
  String.mk (stripTags false text.data)

/-- A string containing no tag-opening bracket, hence no HTML tag. -/
def TagFree (s : String) : Prop := '<' ∉ s.data

instance (s : String) : Decidable (TagFree s) :=
  inferInstanceAs (Decidable (¬ _))

/-- Lexicographic comparison of character lists by code point, the order
SQLite's default BINARY collation induces on valid UTF-8 strings. -/
def charsLeb : List Char → List Char → Bool
  | [], _ => true
  | _ :: _, [] => false
  | a :: as, b :: bs =>
    if a.toNat < b.toNat then true
    else if b.toNat < a.toNat then false
    else charsLeb as bs

/-- `ORDER BY` comparison on string columns. -/
def strLe (a b : String) : Prop := charsLeb a.data b.data = true

instance (a b : String) : Decidable (strLe a b) :=
  inferInstanceAs (Decidable (_ = true))

/-- A row of the `users` table (table definition `User`). -/
structure UserRow where
  id : Nat
  auth_id : String
  deriving DecidableEq

/-- A row of the `categories` table (table definition `Category`). -/
structure CategoryRow where
  id : Nat
  name : String
  user_id : Nat
  deriving DecidableEq

/-- A row of the `items` table (table definition `Item`); `created` is
the timestamp filled in by the server default. -/
structure ItemRow where
  id : Nat
  name : String
  description : String
  created : Nat
  category_id : Nat
  user_id : Nat
  deriving DecidableEq

/-- The database state: the three tables, the autoincrement counters,
and the clock supplying `func.now()` for the `created` column. -/
structure DBState where
  users : List UserRow
  categories : List CategoryRow
  items : List ItemRow
  nextUserId : Nat
  nextCategoryId : Nat
  nextItemId : Nat
  clock : Nat
  deriving DecidableEq

/-- The freshly created database (sqlite autoincrement starts at 1). -/
def DBState.init : DBState := ⟨[], [], [], 1, 1, 1, 0⟩

/-- The dict returned by `DBManager.get_category`. -/
structure CategoryView where
  id : Nat
  name : String
  user_id : Nat
  deriving DecidableEq

/-- The dict returned by `DBManager.get_item`. -/
structure ItemView where
  id : Nat
  name : String
  description : String
  created : Nat
  category_id : Nat
  user_id : Nat
  deriving DecidableEq

/-- One value of the ordered dict returned by
`DBManager.get_latest_items`. -/
structure LatestEntry where
  name : String
  category_id : Nat
  category_name : String
  deriving DecidableEq

namespace DBManager

/-- `DBManager.get_or_add_user_id`: clean the auth ID, refuse an empty
one, look the user up with `first()`, and insert a fresh row when there
is none.  The insert cannot violate a constraint (the lookup just
failed), so the session body has no failing branch. -/
def get_or_add_user_id (s : DBState) (auth_id : String) :
    Option Nat × DBState :=
  if clean auth_id = "" then (none, s)
  else
    match s.users.find? (fun u => u.auth_id == clean auth_id) with
    | some user => (some user.id, s)
    | none =>
      (some s.nextUserId,
        { s with
            users := s.users ++ [⟨s.nextUserId, clean auth_id⟩],
            nextUserId := s.nextUserId + 1 })

/-- Session body of `DBManager.add_category`: the INSERT's flush raises
on a UNIQUE(name) or FOREIGN KEY(user_id) violation. -/
def add_category_tx (s : DBState) (name : String) (user_id : Nat) :
    Option (Nat × DBState) :=
  if s.categories.any (fun c => c.name == name)
      || !(s.users.any (fun u => u.id == user_id)) then
    none
  else
    some (s.nextCategoryId,
      { s with
          categories :=
            s.categories ++ [⟨s.nextCategoryId, name, user_id⟩],
          nextCategoryId := s.nextCategoryId + 1 })

/-- `DBManager.add_category`. -/
def add_category (s : DBState) (name : String) (user_id : Nat) :
    (Option Nat × String) × DBState :=
  if clean name = "" then ((none, "Invalid category name."), s)
  else
    match add_category_tx s (clean name) user_id with
    | none => ((none, "Failed to add a category."), s)
    | some (cid, s2) =>
      ((some cid, "Added new category '" ++ clean name ++ "'."), s2)

/-- Session body of `DBManager.edit_category`: `one()` raises unless
exactly one row matches the id filter, and the commit raises when
another category already holds the new name. -/
def edit_category_tx (s : DBState) (category_id : Nat) (name : String) :
    Option (String × DBState) :=
  match s.categories.filter (fun c => c.id == category_id) with
  | [category] =>
    if s.categories.any
        (fun c => c.id != category_id && c.name == name) then
      none
    else
      some ("Changed name of category '" ++ clean category.name
          ++ "' to '" ++ name ++ "'.",
        { s with
            categories := s.categories.map (fun c =>
              if c.id == category_id then { c with name := name }
              else c) })
  | _ => none

/-- `DBManager.edit_category`. -/
def edit_category (s : DBState) (category_id : Nat) (name : String) :
    String × DBState :=
  if clean name = "" then ("Invalid category name.", s)
  else
    match edit_category_tx s category_id (clean name) with
    | none => ("Failed to edit a category.", s)
    | some r => r

/-- Session body of `DBManager.delete_category`: `one()` raises unless
exactly one row matches, and `query().filter().delete()` removes the
category while `ON DELETE CASCADE` on `Item.category_id` removes its
items. -/
def delete_category_tx (s : DBState) (category_id : Nat) :
    Option (String × DBState) :=
  match s.categories.filter (fun c => c.id == category_id) with
  | [category] =>
    some ("Deleted category '" ++ clean category.name ++ "'.",
      { s with
          categories :=
            s.categories.filter (fun c => c.id != category_id),
          items :=
            s.items.filter (fun i => i.category_id != category_id) })
  | _ => none

/-- `DBManager.delete_category`. -/
def delete_category (s : DBState) (category_id : Nat) :
    String × DBState :=
  match delete_category_tx s category_id with
  | none => ("Failed to delete a category.", s)
  | some r => r

/-- `DBManager.get_category`: `one()` raises unless exactly one row
matches; the exception is caught and `None` returned. -/
def get_category (s : DBState) (category_id : Nat) :
    Option CategoryView × DBState :=
  match s.categories.filter (fun c => c.id == category_id) with
  | [category] => (some ⟨category.id, clean category.name, category.user_id⟩, s)
  | _ => (none, s)

/-- `DBManager.get_category_list`: all categories, or the given user's,
in alphabetical order of the stored name. -/
def get_category_list (s : DBState) (user_id : Option Nat) :
    List (Nat × String) × DBState :=
  let cats :=
    match user_id with
    | none => s.categories
    | some uid => s.categories.filter (fun c => c.user_id == uid)
  ((List.insertionSort (fun a b => strLe a.name b.name) cats).map
      (fun c => (c.id, clean c.name)), s)

/-- Session body of `DBManager.add_item`: the INSERT's flush raises on a
UNIQUE(name) or FOREIGN KEY(category_id, user_id) violation; `created`
receives the server default `now()`. -/
def add_item_tx (s : DBState) (name : String) (descr : String)
    (category_id : Nat) (user_id : Nat) : Option (Nat × DBState) :=
  if s.items.any (fun i => i.name == name)
      || !(s.categories.any (fun c => c.id == category_id))
      || !(s.users.any (fun u => u.id == user_id)) then
    none
  else
    some (s.nextItemId,
      { s with
          items := s.items ++ [⟨s.nextItemId, name, descr, s.clock,
            category_id, user_id⟩],
          nextItemId := s.nextItemId + 1,
          clock := s.clock + 1 })

/-- `DBManager.add_item`. -/
def add_item (s : DBState) (name : String) (descr : String)
    (category_id : Nat) (user_id : Nat) :
    (Option Nat × String) × DBState :=
  if clean name = "" then ((none, "Invalid item name."), s)
  else
    match add_item_tx s (clean name) (clean descr) category_id
        user_id with
    | none => ((none, "Failed to add an item."), s)
    | some (iid, s2) =>
      ((some iid, "Added new item '" ++ clean name ++ "'."), s2)

/-- Session body of `DBManager.edit_item`: `one()` raises unless exactly
one row matches, and the commit raises when another item holds the new
name or the new `category_id` references no category. -/
def edit_item_tx (s : DBState) (item_id : Nat) (name : String)
    (descr : String) (category_id : Nat) : Option (String × DBState) :=
  match s.items.filter (fun i => i.id == item_id) with
  | [item] =>
    if s.items.any (fun i => i.id != item_id && i.name == name)
        || !(s.categories.any (fun c => c.id == category_id)) then
      none
    else
      some ("Edited item '" ++ name ++ "' (formerly '"
          ++ clean item.name ++ "').",
        { s with
            items := s.items.map (fun i =>
              if i.id == item_id then
                { i with
                    name := name,
                    description := descr,
                    category_id := category_id }
              else i) })
  | _ => none

/-- `DBManager.edit_item`. -/
def edit_item (s : DBState) (item_id : Nat) (name : String)
    (descr : String) (category_id : Nat) : String × DBState :=
  if clean name = "" then ("Invalid item name.", s)
  else
    match edit_item_tx s item_id (clean name) (clean descr)
        category_id with
    | none => ("Failed to edit an item.", s)
    | some r => r

/-- Session body of `DBManager.delete_item`. -/
def delete_item_tx (s : DBState) (item_id : Nat) :
    Option (String × DBState) :=
  match s.items.filter (fun i => i.id == item_id) with
  | [item] =>
    some ("Deleted item '" ++ clean item.name ++ "'.",
      { s with items := s.items.filter (fun i => i.id != item_id) })
  | _ => none

/-- `DBManager.delete_item`. -/
def delete_item (s : DBState) (item_id : Nat) : String × DBState :=
  match delete_item_tx s item_id with
  | none => ("Failed to delete an item.", s)
  | some r => r

/-- `DBManager.get_item`. -/
def get_item (s : DBState) (item_id : Nat) : Option ItemView × DBState :=
  match s.items.filter (fun i => i.id == item_id) with
  | [item] =>
    (some ⟨item.id, clean item.name, clean item.description,
      item.created, item.category_id, item.user_id⟩, s)
  | _ => (none, s)

/-- The inner join `query(Item, Category).join(Category)`: every pair of
an item and the category its `category_id` references. -/
def joined (s : DBState) : List (ItemRow × CategoryRow) :=
  s.items.flatMap (fun i =>
    (s.categories.filter (fun c => c.id == i.category_id)).map
      (fun c => (i, c)))

/-- The `ORDER BY Item.created DESC, Item.name` comparison of
`DBManager.get_latest_items`. -/
def latestLe (a b : ItemRow × CategoryRow) : Prop :=
  b.1.created < a.1.created
    ∨ (a.1.created = b.1.created ∧ strLe a.1.name b.1.name)

instance : DecidableRel latestLe := fun _a _b =>
  inferInstanceAs (Decidable (_ ∨ _))

/-- `DBManager.get_latest_items`. -/
def get_latest_items (s : DBState) (num : Nat) :
    List (Nat × LatestEntry) × DBState :=
  (((List.insertionSort latestLe (joined s)).take num).map
      (fun p => (p.1.id, ⟨p.1.name, p.2.id, p.2.name⟩)), s)

/-- `DBManager.get_category_items`. -/
def get_category_items (s : DBState) (category_id : Nat) :
    List (Nat × String) × DBState :=
  ((List.insertionSort (fun a b => strLe a.name b.name)
      (s.items.filter (fun i => i.category_id == category_id))).map
      (fun i => (i.id, clean i.name)), s)

end DBManager

/-- Deletion of one row of the `users` table at the SQL level.  There is
no DBManager method for this; the schema declares
`ForeignKey(User.id, ondelete="CASCADE")` on `Category.user_id` and
`Item.user_id` and `ForeignKey(Category.id, ondelete="CASCADE")` on
`Item.category_id`, so with foreign keys enforced the delete removes the
user's categories, the user's items, and the items of the removed
categories. -/
def deleteUserRow (s : DBState) (user_id : Nat) : DBState :=
  { s with
      users := s.users.filter (fun u => u.id != user_id),
      categories := s.categories.filter (fun c => c.user_id != user_id),
      items := s.items.filter (fun i =>
        i.user_id != user_id
          && !(s.categories.any (fun c =>
                c.user_id == user_id && c.id == i.category_id))) }

namespace ContentManager

/-- `ContentManager.get_user_id`, a pass-through. -/
def get_user_id (s : DBState) (auth_id : String) : Option Nat × DBState :=
  DBManager.get_or_add_user_id s auth_id

/-- `ContentManager.add_category`: delegate and flash the message.  The
first component collects the flashed messages, the second is the return
value. -/
def add_category (s : DBState) (name : String) (user_id : Nat) :
    (List String × Option Nat) × DBState :=
  match DBManager.add_category s name user_id with
  | ((category_id, message), s') => (([message], category_id), s')

/-- `ContentManager.edit_category`: look the category up, refuse when it
is missing or owned by another user, otherwise delegate. -/
def edit_category (s : DBState) (category_id : Nat) (name : String)
    (user_id : Nat) : List String × DBState :=
  match (DBManager.get_category s category_id).1 with
  | none => (["Invalid category."], s)
  | some category =>
    if category.user_id != user_id then
      (["Only the original creator can edit a category."], s)
    else
      match DBManager.edit_category s category_id name with
      | (message, s') => ([message], s')

/-- `ContentManager.delete_category`. -/
def delete_category (s : DBState) (category_id : Nat) (user_id : Nat) :
    List String × DBState :=
  match (DBManager.get_category s category_id).1 with
  | none => (["Invalid category."], s)
  | some category =>
    if category.user_id != user_id then
      (["Only the original creator can delete a category."], s)
    else
      match DBManager.delete_category s category_id with
      | (message, s') => ([message], s')

/-- `ContentManager.add_item`: the target category must exist and be
owned by the caller. -/
def add_item (s : DBState) (name : String) (descr : String)
    (category_id : Nat) (user_id : Nat) :
    (List String × Option Nat) × DBState :=
  match (DBManager.get_category s category_id).1 with
  | none => ((["Invalid category."], none), s)
  | some category =>
    if category.user_id != user_id then
      ((["You can only add items to categories you created."], none), s)
    else
      match DBManager.add_item s name descr category_id user_id with
      | ((item_id, message), s') => (([message], item_id), s')

/-- `ContentManager.edit_item`: the item must exist and be owned by the
caller, and the target category must exist and be owned by the
caller. -/
def edit_item (s : DBState) (item_id : Nat) (name : String)
    (descr : String) (category_id : Nat) (user_id : Nat) :
    List String × DBState :=
  match (DBManager.get_item s item_id).1 with
  | none => (["Invalid item."], s)
  | some item =>
    if item.user_id != user_id then
      (["Only the original creator can edit an item."], s)
    else
      match (DBManager.get_category s category_id).1 with
      | none => (["Invalid category."], s)
      | some category =>
        if category.user_id != user_id then
          (["You can only add items to categories you created."], s)
        else
          match DBManager.edit_item s item_id name descr category_id with
          | (message, s') => ([message], s')

/-- `ContentManager.delete_item`. -/
def delete_item (s : DBState) (item_id : Nat) (user_id : Nat) :
    List String × DBState :=
  match (DBManager.get_item s item_id).1 with
  | none => (["Invalid item."], s)
  | some item =>
    if item.user_id != user_id then
      (["Only the original creator can delete an item."], s)
    else
      match DBManager.delete_item s item_id with
      | (message, s') => ([message], s')

/-- The four shapes of JSON content `ContentManager.get_content`
returns. -/
inductive Content where
  | categories (cats : List (Nat × String))
  | latest (entries : List (Nat × LatestEntry))
  | category (id : Nat) (name : String) (items : List (Nat × String))
  | item (id : Nat) (name : String) (descr : String)
      (category_id : Nat) (category_name : String)
  deriving DecidableEq

/-- `ContentManager.get_content`: dispatch on the resource name; every
branch only runs read queries, and a request that matches no branch
falls through to `None`.  `num` is `None` on all routes but
`latest_items` (the comparison `None > 0` is false in Python 2). -/
def get_content (s : DBState) (resource : String) (num : Option Nat)
    (id_ : Option Nat) : Option Content × DBState :=
  if resource = "categories" then
    match DBManager.get_category_list s none with
    | (cats, s1) => (some (Content.categories cats), s1)
  else if resource = "latest_items" ∧ 0 < num.getD 0 then
    match num with
    | some n =>
      match DBManager.get_latest_items s n with
      | (entries, s1) => (some (Content.latest entries), s1)
    | none => (none, s)
  else if resource = "category" then
    match id_ with
    | some i =>
      match DBManager.get_category s i with
      | (some category, s1) =>
        match DBManager.get_category_items s1 category.id with
        | (items, s2) =>
          (some (Content.category category.id category.name items), s2)
      | (none, s1) => (none, s1)
    | none => (none, s)
  else if resource = "item" then
    match id_ with
    | some i =>
      match DBManager.get_item s i with
      | (some item, s1) =>
        match DBManager.get_category s1 item.category_id with
        | (some category, s2) =>
          (some (Content.item item.id item.name item.description
            item.category_id category.name), s2)
        | (none, s2) => (none, s2)
      | (none, s1) => (none, s1)
    | none => (none, s)
  else (none, s)

end ContentManager

/-- The `serve_json` route handler of catalog/app.py: ask the content
manager for the resource and answer 404 when it yields `None`, else 200
with the content. -/
def serve_json (s : DBState) (resource : String) (num : Option Nat)
    (id_ : Option Nat) : (Nat × Option ContentManager.Content) × DBState :=
  match ContentManager.get_content s resource num id_ with
  | (none, s1) => ((404, none), s1)
  | (some c, s1) => ((200, some c), s1)

/-- The database states reachable from a fresh database through the
DBManager operations (the read queries do not change the state). -/
inductive Reachable : DBState → Prop where
  | init : Reachable DBState.init
  | user {s} (h : Reachable s) (auth_id : String) :
      Reachable (DBManager.get_or_add_user_id s auth_id).2
  | addCat {s} (h : Reachable s) (name : String) (user_id : Nat) :
      Reachable (DBManager.add_category s name user_id).2
  | editCat {s} (h : Reachable s) (category_id : Nat) (name : String) :
      Reachable (DBManager.edit_category s category_id name).2
  | delCat {s} (h : Reachable s) (category_id : Nat) :
      Reachable (DBManager.delete_category s category_id).2
  | addItem {s} (h : Reachable s) (name descr : String)
      (category_id user_id : Nat) :
      Reachable (DBManager.add_item s name descr category_id user_id).2
  | editItem {s} (h : Reachable s) (item_id : Nat) (name descr : String)
      (category_id : Nat) :
      Reachable (DBManager.edit_item s item_id name descr category_id).2
  | delItem {s} (h : Reachable s) (item_id : Nat) :
      Reachable (DBManager.delete_item s item_id).2

/-- The data-model invariant: primary keys below the autoincrement
counters and pairwise distinct, names and auth IDs pairwise distinct,
foreign keys referencing existing rows, and every stored string cleaned
(tag-free, names and auth IDs non-empty). -/
structure DBInv (s : DBState) : Prop where
  users_distinct :
    s.users.Pairwise (fun a b => a.id ≠ b.id ∧ a.auth_id ≠ b.auth_id)
  cats_distinct :
    s.categories.Pairwise (fun a b => a.id ≠ b.id ∧ a.name ≠ b.name)
  items_distinct :
    s.items.Pairwise (fun a b => a.id ≠ b.id ∧ a.name ≠ b.name)
  users_lt : ∀ u ∈ s.users, u.id < s.nextUserId
  cats_lt : ∀ c ∈ s.categories, c.id < s.nextCategoryId
  items_lt : ∀ i ∈ s.items, i.id < s.nextItemId
  cats_fk : ∀ c ∈ s.categories, ∃ u ∈ s.users, u.id = c.user_id
  items_fk_cat :
    ∀ i ∈ s.items, ∃ c ∈ s.categories, c.id = i.category_id
  items_fk_user : ∀ i ∈ s.items, ∃ u ∈ s.users, u.id = i.user_id
  users_clean : ∀ u ∈ s.users, TagFree u.auth_id ∧ u.auth_id ≠ ""
  cats_clean : ∀ c ∈ s.categories, TagFree c.name ∧ c.name ≠ ""
  items_clean :
    ∀ i ∈ s.items, TagFree i.name ∧ TagFree i.description ∧ i.name ≠ ""

/-! Helper lemmas about the tag stripper and the string order. -/

theorem stripTags_tagFree (b : Bool) (l : List Char) :
    '<' ∉ stripTags b l := by
  induction l generalizing b with
  | nil => cases b <;> simp [stripTags]
  | cons c rest ih =>
    cases b with
    | true =>
      by_cases hc : c = '>' <;> simp [stripTags, hc] <;> exact ih _
    | false =>
      by_cases hc : c = '<'
      · simpa [stripTags, hc] using ih true
      · simp only [stripTags, if_neg hc, if_false]
        intro hmem
        rcases List.mem_cons.mp hmem with h1 | h1
        · exact hc h1.symm
        · exact ih false h1

theorem tagFree_clean (t : String) : TagFree (clean t) := by
  simpa [TagFree, clean] using stripTags_tagFree false t.data

theorem stripTags_of_no_tag (l : List Char) (h : '<' ∉ l) :
    stripTags false l = l := by
  induction l with
  | nil => simp [stripTags]
  | cons c rest ih =>
    simp only [List.mem_cons, not_or] at h
    simp [stripTags, Ne.symm h.1, ih h.2]

theorem clean_of_tagFree (s : String) (h : TagFree s) : clean s = s := by
  cases s with
  | mk data =>
    show String.mk (stripTags false data) = String.mk data
    exact congrArg String.mk (stripTags_of_no_tag data h)

theorem clean_clean (t : String) : clean (clean t) = clean t :=
  clean_of_tagFree _ (tagFree_clean t)

theorem charsLeb_total (as bs : List Char) :
    charsLeb as bs = true ∨ charsLeb bs as = true := by
  induction as generalizing bs with
  | nil => left; simp [charsLeb]
  | cons a tl ih =>
    cases bs with
    | nil => right; simp [charsLeb]
    | cons b bs =>
      rcases Nat.lt_trichotomy a.toNat b.toNat with h | h | h
      · left; simp [charsLeb, h]
      · rcases ih bs with h2 | h2
        · left; simp [charsLeb, h, h2]
        · right; simp [charsLeb, h.symm, h2]
      · right; simp [charsLeb, h]

theorem charsLeb_trans (as bs cs : List Char)
    (h1 : charsLeb as bs = true) (h2 : charsLeb bs cs = true) :
    charsLeb as cs = true := by
  induction as generalizing bs cs with
  | nil => simp [charsLeb]
  | cons a tl ih =>
    cases bs with
    | nil => simp [charsLeb] at h1
    | cons b bs =>
      cases cs with
      | nil => simp [charsLeb] at h2
      | cons c cs =>
        simp only [charsLeb] at h1 h2 ⊢
        split at h1
        · rename_i hab
          split at h2
          · rename_i hbc
            simp [Nat.lt_trans hab hbc]
          · split at h2
            · exact absurd h2 (by simp)
            · rename_i hcb hbc
              have hbc' : b.toNat = c.toNat := le_antisymm
                (Nat.le_of_not_lt hbc) (Nat.le_of_not_lt hcb)
              simp [hbc' ▸ hab]
        · split at h1
          · exact absurd h1 (by simp)
          · rename_i hba hab
            have hab' : a.toNat = b.toNat := le_antisymm
              (Nat.le_of_not_lt hab) (Nat.le_of_not_lt hba)
            split at h2
            · rename_i hbc
              simp [hab' ▸ hbc]
            · split at h2
              · exact absurd h2 (by simp)
              · rename_i hcb hbc
                have hbc' : b.toNat = c.toNat := le_antisymm
                  (Nat.le_of_not_lt hbc) (Nat.le_of_not_lt hcb)
                have : ¬ a.toNat < c.toNat := by omega
                simp [this, ih bs cs h1 h2, hbc' ▸ hab', this]

theorem strLe_total (a b : String) : strLe a b ∨ strLe b a :=
  charsLeb_total a.data b.data

theorem strLe_trans {a b c : String} (h1 : strLe a b) (h2 : strLe b c) :
    strLe a c :=
  charsLeb_trans a.data b.data c.data h1 h2

instance : IsTotal CategoryRow (fun a b => strLe a.name b.name) :=
  ⟨fun a b => strLe_total a.name b.name⟩

instance : IsTrans CategoryRow (fun a b => strLe a.name b.name) :=
  ⟨fun _ _ _ => strLe_trans⟩

instance : IsTotal ItemRow (fun a b => strLe a.name b.name) :=
  ⟨fun a b => strLe_total a.name b.name⟩

instance : IsTrans ItemRow (fun a b => strLe a.name b.name) :=
  ⟨fun _ _ _ => strLe_trans⟩

instance : IsTotal (ItemRow × CategoryRow) DBManager.latestLe where
  total a b := by
    unfold DBManager.latestLe
    rcases Nat.lt_trichotomy b.1.created a.1.created with h | h | h
    · exact Or.inl (Or.inl h)
    · rcases strLe_total a.1.name b.1.name with h2 | h2
      · exact Or.inl (Or.inr ⟨h.symm, h2⟩)
      · exact Or.inr (Or.inr ⟨h, h2⟩)
    · exact Or.inr (Or.inl h)

instance : IsTrans (ItemRow × CategoryRow) DBManager.latestLe where
  trans a b c h1 h2 := by
    unfold DBManager.latestLe at h1 h2 ⊢
    rcases h1 with h1 | ⟨h1e, h1n⟩ <;> rcases h2 with h2 | ⟨h2e, h2n⟩
    · exact Or.inl (Nat.lt_trans h2 h1)
    · exact Or.inl (h2e ▸ h1)
    · exact Or.inl (h1e ▸ h2)
    · exact Or.inr ⟨h1e.trans h2e, strLe_trans h1n h2n⟩

/-! Preservation of the data-model invariant by every DBManager
operation, and its consequence for all reachable states. -/

theorem dbinv_get_or_add_user_id {s : DBState} (h : DBInv s)
    (a : String) : DBInv (DBManager.get_or_add_user_id s a).2 := by
  simp only [DBManager.get_or_add_user_id]
  by_cases he : clean a = ""
  · simpa [he] using h
  · simp only [if_neg he]
    cases hf : s.users.find? (fun u => u.auth_id == clean a) with
    | some u => exact h
    | none =>
      have hnone : ∀ u ∈ s.users, u.auth_id ≠ clean a := by
        intro u hu
        simpa using List.find?_eq_none.mp hf u hu
      refine ⟨?_, h.cats_distinct, h.items_distinct, ?_, h.cats_lt,
        h.items_lt, ?_, h.items_fk_cat, ?_, ?_, h.cats_clean,
        h.items_clean⟩
      · rw [List.pairwise_append]
        refine ⟨h.users_distinct, List.pairwise_singleton _ _, ?_⟩
        intro u hu v hv
        simp only [List.mem_singleton] at hv
        subst hv
        exact ⟨Nat.ne_of_lt (h.users_lt u hu), hnone u hu⟩
      · intro u hu
        rcases List.mem_append.mp hu with h1 | h1
        · exact Nat.lt_succ_of_lt (h.users_lt u h1)
        · simp only [List.mem_singleton] at h1
          subst h1
          exact Nat.lt_succ_self _
      · intro c hc
        obtain ⟨u, hu, he2⟩ := h.cats_fk c hc
        exact ⟨u, List.mem_append_left _ hu, he2⟩
      · intro i hi
        obtain ⟨u, hu, he2⟩ := h.items_fk_user i hi
        exact ⟨u, List.mem_append_left _ hu, he2⟩
      · intro u hu
        rcases List.mem_append.mp hu with h1 | h1
        · exact h.users_clean u h1
        · simp only [List.mem_singleton] at h1
          subst h1
          exact ⟨tagFree_clean a, he⟩

theorem dbinv_add_category {s : DBState} (h : DBInv s) (name : String)
    (user_id : Nat) : DBInv (DBManager.add_category s name user_id).2 := by
  simp only [DBManager.add_category]
  by_cases he : clean name = ""
  · simpa [he] using h
  · simp only [if_neg he]
    cases htx : DBManager.add_category_tx s (clean name) user_id with
    | none => exact h
    | some r =>
      obtain ⟨cid, s'⟩ := r
      simp only [DBManager.add_category_tx] at htx
      by_cases hg : (s.categories.any (fun c => c.name == clean name)
          || !(s.users.any (fun u => u.id == user_id))) = true
      · simp [hg] at htx
      · rw [if_neg hg] at htx
        simp only [Bool.or_eq_true, Bool.not_eq_true', not_or,
          Bool.not_eq_false, List.any_eq_true, List.any_eq_false,
          beq_iff_eq] at hg
        obtain ⟨hname, huser⟩ := hg
        push_neg at hname
        push_neg at huser
        obtain ⟨u0, hu0, hu0e⟩ := huser
        rw [Option.some.injEq, Prod.mk.injEq] at htx
        obtain ⟨he1, he2⟩ := htx
        subst he2
        refine ⟨h.users_distinct, ?_, h.items_distinct, h.users_lt, ?_,
          h.items_lt, ?_, ?_, h.items_fk_user, h.users_clean, ?_,
          h.items_clean⟩
        · rw [List.pairwise_append]
          refine ⟨h.cats_distinct, List.pairwise_singleton _ _, ?_⟩
          intro c hc v hv
          simp only [List.mem_singleton] at hv
          subst hv
          exact ⟨Nat.ne_of_lt (h.cats_lt c hc), hname c hc⟩
        · intro c hc
          rcases List.mem_append.mp hc with h1 | h1
          · exact Nat.lt_succ_of_lt (h.cats_lt c h1)
          · simp only [List.mem_singleton] at h1
            subst h1
            exact Nat.lt_succ_self _
        · intro c hc
          rcases List.mem_append.mp hc with h1 | h1
          · exact h.cats_fk c h1
          · simp only [List.mem_singleton] at h1
            subst h1
            exact ⟨u0, hu0, hu0e⟩
        · intro i hi
          obtain ⟨c, hc, he3⟩ := h.items_fk_cat i hi
          exact ⟨c, List.mem_append_left _ hc, he3⟩
        · intro c hc
          rcases List.mem_append.mp hc with h1 | h1
          · exact h.cats_clean c h1
          · simp only [List.mem_singleton] at h1
            subst h1
            exact ⟨tagFree_clean name, he⟩

theorem dbinv_delete_category {s : DBState} (h : DBInv s)
    (category_id : Nat) :
    DBInv (DBManager.delete_category s category_id).2 := by
  simp only [DBManager.delete_category, DBManager.delete_category_tx]
  cases hfl : s.categories.filter (fun c => c.id == category_id) with
  | nil => exact h
  | cons c0 tl =>
    cases tl with
    | cons c1 tl2 => exact h
    | nil =>
        refine ⟨h.users_distinct,
          h.cats_distinct.filter _, h.items_distinct.filter _,
          h.users_lt, ?_, ?_, ?_, ?_, ?_, h.users_clean, ?_, ?_⟩
        · intro c hc
          exact h.cats_lt c (List.mem_of_mem_filter hc)
        · intro i hi
          exact h.items_lt i (List.mem_of_mem_filter hi)
        · intro c hc
          exact h.cats_fk c (List.mem_of_mem_filter hc)
        · intro i hi
          rw [List.mem_filter] at hi
          obtain ⟨hi1, hi2⟩ := hi
          obtain ⟨c, hc, hce⟩ := h.items_fk_cat i hi1
          refine ⟨c, ?_, hce⟩
          rw [List.mem_filter]
          refine ⟨hc, ?_⟩
          simp only [bne_iff_ne] at hi2 ⊢
          exact fun hcc => hi2 (hce ▸ hcc ▸ rfl)
        · intro i hi
          exact h.items_fk_user i (List.mem_of_mem_filter hi)
        · intro c hc
          exact h.cats_clean c (List.mem_of_mem_filter hc)
        · intro i hi
          exact h.items_clean i (List.mem_of_mem_filter hi)

theorem dbinv_delete_item {s : DBState} (h : DBInv s) (item_id : Nat) :
    DBInv (DBManager.delete_item s item_id).2 := by
  simp only [DBManager.delete_item, DBManager.delete_item_tx]
  cases hfl : s.items.filter (fun i => i.id == item_id) with
  | nil => exact h
  | cons i0 tl =>
    cases tl with
    | cons i1 tl2 => exact h
    | nil =>
        refine ⟨h.users_distinct, h.cats_distinct,
          h.items_distinct.filter _, h.users_lt, h.cats_lt, ?_,
          h.cats_fk, ?_, ?_, h.users_clean, h.cats_clean, ?_⟩
        · intro i hi
          exact h.items_lt i (List.mem_of_mem_filter hi)
        · intro i hi
          exact h.items_fk_cat i (List.mem_of_mem_filter hi)
        · intro i hi
          exact h.items_fk_user i (List.mem_of_mem_filter hi)
        · intro i hi
          exact h.items_clean i (List.mem_of_mem_filter hi)

theorem dbinv_edit_category {s : DBState} (h : DBInv s)
    (category_id : Nat) (name : String) :
    DBInv (DBManager.edit_category s category_id name).2 := by
  simp only [DBManager.edit_category, DBManager.edit_category_tx]
  by_cases he : clean name = ""
  · simpa [he] using h
  · simp only [if_neg he]
    cases hfl : s.categories.filter (fun c => c.id == category_id) with
    | nil => exact h
    | cons c0 tl =>
      cases tl with
      | cons c1 tl2 => exact h
      | nil =>
        by_cases hg : (s.categories.any
            (fun c => c.id != category_id && c.name == clean name))
            = true
        · simp only [if_pos hg]
          exact h
        · simp only [if_neg hg]
          simp only [List.any_eq_true, not_exists, not_and,
            Bool.and_eq_true, bne_iff_ne, beq_iff_eq] at hg
          have hfid : ∀ c : CategoryRow,
              ((if c.id == category_id then
                { c with name := clean name } else c) :
                CategoryRow).id = c.id := by
            intro c
            by_cases hx : (c.id == category_id) = true <;> simp [hx]
          have hfuser : ∀ c : CategoryRow,
              ((if c.id == category_id then
                { c with name := clean name } else c) :
                CategoryRow).user_id = c.user_id := by
            intro c
            by_cases hx : (c.id == category_id) = true <;> simp [hx]
          refine ⟨h.users_distinct, ?_, h.items_distinct, h.users_lt,
            ?_, h.items_lt, ?_, ?_, h.items_fk_user, h.users_clean,
            ?_, h.items_clean⟩
          · rw [List.pairwise_map]
            refine h.cats_distinct.imp_of_mem ?_
            intro a b ha hb hab
            refine ⟨by rw [hfid, hfid]; exact hab.1, ?_⟩
            by_cases hxa : (a.id == category_id) = true
            · have hb2 : ¬ (b.id == category_id) = true := by
                simp only [beq_iff_eq] at hxa ⊢
                exact fun hc => hab.1 (hxa.trans hc.symm)
              simp only [if_pos hxa, if_neg hb2]
              have := hg b hb (by simpa using hb2)
              exact fun hc => this hc.symm
            · by_cases hxb : (b.id == category_id) = true
              · simp only [if_neg hxa, if_pos hxb]
                exact hg a ha (by simpa using hxa)
              · simp only [if_neg hxa, if_neg hxb]
                exact hab.2
          · intro c hc
            obtain ⟨a, ha, hae⟩ := List.mem_map.mp hc
            rw [← hae, hfid]
            exact h.cats_lt a ha
          · intro c hc
            obtain ⟨a, ha, hae⟩ := List.mem_map.mp hc
            obtain ⟨u, hu, hue⟩ := h.cats_fk a ha
            exact ⟨u, hu, by rw [← hae, hfuser]; exact hue⟩
          · intro i hi
            obtain ⟨c, hc, hce⟩ := h.items_fk_cat i hi
            refine ⟨_, List.mem_map_of_mem _ hc, by rw [hfid]; exact hce⟩
          · intro c hc
            obtain ⟨a, ha, hae⟩ := List.mem_map.mp hc
            by_cases hxa : (a.id == category_id) = true
            · rw [← hae, if_pos hxa]
              exact ⟨tagFree_clean name, he⟩
            · rw [← hae, if_neg hxa]
              exact h.cats_clean a ha

theorem dbinv_add_item {s : DBState} (h : DBInv s) (name descr : String)
    (category_id user_id : Nat) :
    DBInv (DBManager.add_item s name descr category_id user_id).2 := by
  simp only [DBManager.add_item]
  by_cases he : clean name = ""
  · simpa [he] using h
  · simp only [if_neg he]
    cases htx : DBManager.add_item_tx s (clean name) (clean descr)
        category_id user_id with
    | none => exact h
    | some r =>
      obtain ⟨iid, s'⟩ := r
      simp only [DBManager.add_item_tx] at htx
      by_cases hg : (s.items.any (fun i => i.name == clean name)
          || !(s.categories.any (fun c => c.id == category_id))
          || !(s.users.any (fun u => u.id == user_id))) = true
      · simp [hg] at htx
      · rw [if_neg hg] at htx
        simp only [Bool.or_eq_true, Bool.not_eq_true', not_or,
          Bool.not_eq_false, List.any_eq_true, List.any_eq_false,
          beq_iff_eq] at hg
        obtain ⟨⟨hname, hcat⟩, huser⟩ := hg
        push_neg at hname
        push_neg at hcat
        push_neg at huser
        obtain ⟨c0, hc0, hc0e⟩ := hcat
        obtain ⟨u0, hu0, hu0e⟩ := huser
        rw [Option.some.injEq, Prod.mk.injEq] at htx
        obtain ⟨he1, he2⟩ := htx
        subst he2
        refine ⟨h.users_distinct, h.cats_distinct, ?_, h.users_lt,
          h.cats_lt, ?_, h.cats_fk, ?_, ?_, h.users_clean,
          h.cats_clean, ?_⟩
        · rw [List.pairwise_append]
          refine ⟨h.items_distinct, List.pairwise_singleton _ _, ?_⟩
          intro i hi v hv
          simp only [List.mem_singleton] at hv
          subst hv
          exact ⟨Nat.ne_of_lt (h.items_lt i hi), hname i hi⟩
        · intro i hi
          rcases List.mem_append.mp hi with h1 | h1
          · exact Nat.lt_succ_of_lt (h.items_lt i h1)
          · simp only [List.mem_singleton] at h1
            subst h1
            exact Nat.lt_succ_self _
        · intro i hi
          rcases List.mem_append.mp hi with h1 | h1
          · exact h.items_fk_cat i h1
          · simp only [List.mem_singleton] at h1
            subst h1
            exact ⟨c0, hc0, hc0e⟩
        · intro i hi
          rcases List.mem_append.mp hi with h1 | h1
          · exact h.items_fk_user i h1
          · simp only [List.mem_singleton] at h1
            subst h1
            exact ⟨u0, hu0, hu0e⟩
        · intro i hi
          rcases List.mem_append.mp hi with h1 | h1
          · exact h.items_clean i h1
          · simp only [List.mem_singleton] at h1
            subst h1
            exact ⟨tagFree_clean name, tagFree_clean descr, he⟩

theorem dbinv_edit_item {s : DBState} (h : DBInv s) (item_id : Nat)
    (name descr : String) (category_id : Nat) :
    DBInv (DBManager.edit_item s item_id name descr category_id).2 := by
  simp only [DBManager.edit_item, DBManager.edit_item_tx]
  by_cases he : clean name = ""
  · simpa [he] using h
  · simp only [if_neg he]
    cases hfl : s.items.filter (fun i => i.id == item_id) with
    | nil => exact h
    | cons i0 tl =>
      cases tl with
      | cons i1 tl2 => exact h
      | nil =>
        by_cases hg : (s.items.any
              (fun i => i.id != item_id && i.name == clean name)
            || !(s.categories.any (fun c => c.id == category_id)))
            = true
        · simp only [if_pos hg]
          exact h
        · simp only [if_neg hg]
          simp only [Bool.or_eq_true, Bool.not_eq_true', not_or,
            List.any_eq_true, List.any_eq_false, Bool.and_eq_true,
            bne_iff_ne, beq_iff_eq] at hg
          obtain ⟨hname, hcat⟩ := hg
          push_neg at hname
          push_neg at hcat
          obtain ⟨c0, hc0, hc0e⟩ := hcat
          have hfid : ∀ i : ItemRow,
              ((if i.id == item_id then
                { i with
                    name := clean name,
                    description := clean descr,
                    category_id := category_id } else i) :
                ItemRow).id = i.id := by
            intro i
            by_cases hx : (i.id == item_id) = true <;> simp [hx]
          have hfuser : ∀ i : ItemRow,
              ((if i.id == item_id then
                { i with
                    name := clean name,
                    description := clean descr,
                    category_id := category_id } else i) :
                ItemRow).user_id = i.user_id := by
            intro i
            by_cases hx : (i.id == item_id) = true <;> simp [hx]
          refine ⟨h.users_distinct, h.cats_distinct, ?_, h.users_lt,
            h.cats_lt, ?_, h.cats_fk, ?_, ?_, h.users_clean,
            h.cats_clean, ?_⟩
          · rw [List.pairwise_map]
            refine h.items_distinct.imp_of_mem ?_
            intro a b ha hb hab
            refine ⟨by rw [hfid, hfid]; exact hab.1, ?_⟩
            by_cases hxa : (a.id == item_id) = true
            · have hb2 : ¬ (b.id == item_id) = true := by
                simp only [beq_iff_eq] at hxa ⊢
                exact fun hc => hab.1 (hxa.trans hc.symm)
              simp only [if_pos hxa, if_neg hb2]
              have := hname b hb (by simpa using hb2)
              exact fun hc => this hc.symm
            · by_cases hxb : (b.id == item_id) = true
              · simp only [if_neg hxa, if_pos hxb]
                exact hname a ha (by simpa using hxa)
              · simp only [if_neg hxa, if_neg hxb]
                exact hab.2
          · intro i hi
            obtain ⟨a, ha, hae⟩ := List.mem_map.mp hi
            rw [← hae, hfid]
            exact h.items_lt a ha
          · intro i hi
            obtain ⟨a, ha, hae⟩ := List.mem_map.mp hi
            by_cases hxa : (a.id == item_id) = true
            · rw [← hae, if_pos hxa]
              exact ⟨c0, hc0, hc0e⟩
            · rw [← hae, if_neg hxa]
              exact h.items_fk_cat a ha
          · intro i hi
            obtain ⟨a, ha, hae⟩ := List.mem_map.mp hi
            obtain ⟨u, hu, hue⟩ := h.items_fk_user a ha
            exact ⟨u, hu, by rw [← hae, hfuser]; exact hue⟩
          · intro i hi
            obtain ⟨a, ha, hae⟩ := List.mem_map.mp hi
            by_cases hxa : (a.id == item_id) = true
            · rw [← hae, if_pos hxa]
              exact ⟨tagFree_clean name, tagFree_clean descr, he⟩
            · rw [← hae, if_neg hxa]
              exact h.items_clean a ha

/-- The fresh database satisfies the invariant. -/
theorem dbinv_init : DBInv DBState.init := by
  constructor <;> simp [DBState.init]

/-- Every reachable database state satisfies the data-model
invariant. -/
theorem reachable_dbinv {s : DBState} (h : Reachable s) : DBInv s := by
  induction h with
  | init => exact dbinv_init
  | user _ a ih => exact dbinv_get_or_add_user_id ih a
  | addCat _ n u ih => exact dbinv_add_category ih n u
  | editCat _ cid n ih => exact dbinv_edit_category ih cid n
  | delCat _ cid ih => exact dbinv_delete_category ih cid
  | addItem _ n d cid uid ih => exact dbinv_add_item ih n d cid uid
  | editItem _ iid n d cid ih => exact dbinv_edit_item ih iid n d cid
  | delItem _ iid ih => exact dbinv_delete_item ih iid

/-- A filter returning a singleton exhibits a member satisfying the
predicate. -/
theorem filter_eq_singleton_mem {α : Type} {p : α → Bool} {l : List α}
    {a : α} (h : l.filter p = [a]) : a ∈ l ∧ p a = true :=
  List.mem_filter.mp (h ▸ List.mem_singleton_self a)

/-! The read queries leave the state unchanged. -/

theorem get_category_state (s : DBState) (cid : Nat) :
    (DBManager.get_category s cid).2 = s := by
  unfold DBManager.get_category
  cases s.categories.filter (fun c => c.id == cid) with
  | nil => rfl
  | cons a tl => cases tl <;> rfl

theorem get_item_state (s : DBState) (iid : Nat) :
    (DBManager.get_item s iid).2 = s := by
  unfold DBManager.get_item
  cases s.items.filter (fun i => i.id == iid) with
  | nil => rfl
  | cons a tl => cases tl <;> rfl

theorem get_category_list_state (s : DBState) (uid : Option Nat) :
    (DBManager.get_category_list s uid).2 = s := rfl

theorem get_latest_items_state (s : DBState) (num : Nat) :
    (DBManager.get_latest_items s num).2 = s := rfl

theorem get_category_items_state (s : DBState) (cid : Nat) :
    (DBManager.get_category_items s cid).2 = s := rfl

theorem get_content_state (s : DBState) (resource : String)
    (num : Option Nat) (id_ : Option Nat) :
    (ContentManager.get_content s resource num id_).2 = s := by
  unfold ContentManager.get_content
  by_cases h1 : resource = "categories"
  · simp only [if_pos h1]
    rfl
  · simp only [if_neg h1]
    by_cases h2 : resource = "latest_items" ∧ 0 < num.getD 0
    · simp only [if_pos h2]
      cases num <;> rfl
    · simp only [if_neg h2]
      by_cases h3 : resource = "category"
      · simp only [if_pos h3]
        cases id_ with
        | none => rfl
        | some i =>
          dsimp only
          unfold DBManager.get_category
          cases s.categories.filter (fun c => c.id == i) with
          | nil => rfl
          | cons a tl => cases tl <;> rfl
      · simp only [if_neg h3]
        by_cases h4 : resource = "item"
        · simp only [if_pos h4]
          cases id_ with
          | none => rfl
          | some i =>
            dsimp only
            unfold DBManager.get_item
            cases s.items.filter (fun j => j.id == i) with
            | nil => rfl
            | cons a tl =>
              cases tl with
              | cons b tl2 => rfl
              | nil =>
                dsimp only
                unfold DBManager.get_category
                cases s.categories.filter (fun c => c.id == a.category_id) with
                | nil => rfl
                | cons c tl => cases tl <;> rfl
        · simp only [if_neg h4]

/-! Case characterizations of the mutating operations: validation
failure before the session, exception inside the session (rollback), or
committed success. -/

theorem get_or_add_user_id_cases (s : DBState) (auth_id : String) :
    (clean auth_id = ""
        ∧ DBManager.get_or_add_user_id s auth_id = (none, s))
      ∨ (∃ u, clean auth_id ≠ ""
        ∧ s.users.find? (fun v => v.auth_id == clean auth_id) = some u
        ∧ DBManager.get_or_add_user_id s auth_id = (some u.id, s))
      ∨ (clean auth_id ≠ ""
        ∧ s.users.find? (fun v => v.auth_id == clean auth_id) = none
        ∧ DBManager.get_or_add_user_id s auth_id = (some s.nextUserId,
            { s with
                users := s.users ++ [⟨s.nextUserId, clean auth_id⟩],
                nextUserId := s.nextUserId + 1 })) := by
  unfold DBManager.get_or_add_user_id
  by_cases he : clean auth_id = ""
  · exact Or.inl ⟨he, by simp [he]⟩
  · cases hf : s.users.find? (fun v => v.auth_id == clean auth_id) with
    | some u => exact Or.inr (Or.inl ⟨u, he, rfl, by simp [he]⟩)
    | none => exact Or.inr (Or.inr ⟨he, rfl, by simp [he]⟩)

theorem add_category_cases (s : DBState) (name : String)
    (user_id : Nat) :
    (clean name = "" ∧ DBManager.add_category s name user_id
        = ((none, "Invalid category name."), s))
      ∨ (clean name ≠ ""
        ∧ DBManager.add_category_tx s (clean name) user_id = none
        ∧ DBManager.add_category s name user_id
            = ((none, "Failed to add a category."), s))
      ∨ (∃ cid s2, clean name ≠ ""
        ∧ DBManager.add_category_tx s (clean name) user_id
            = some (cid, s2)
        ∧ DBManager.add_category s name user_id
            = ((some cid,
                "Added new category '" ++ clean name ++ "'."), s2)) := by
  unfold DBManager.add_category
  by_cases he : clean name = ""
  · exact Or.inl ⟨he, by simp [he]⟩
  · cases htx : DBManager.add_category_tx s (clean name) user_id with
    | none => exact Or.inr (Or.inl ⟨he, rfl, by simp [he]⟩)
    | some r =>
      obtain ⟨cid, s2⟩ := r
      exact Or.inr (Or.inr ⟨cid, s2, he, rfl, by simp [he]⟩)

theorem edit_category_cases (s : DBState) (category_id : Nat)
    (name : String) :
    (clean name = "" ∧ DBManager.edit_category s category_id name
        = ("Invalid category name.", s))
      ∨ (clean name ≠ ""
        ∧ DBManager.edit_category_tx s category_id (clean name) = none
        ∧ DBManager.edit_category s category_id name
            = ("Failed to edit a category.", s))
      ∨ (∃ r, clean name ≠ ""
        ∧ DBManager.edit_category_tx s category_id (clean name) = some r
        ∧ DBManager.edit_category s category_id name = r) := by
  unfold DBManager.edit_category
  by_cases he : clean name = ""
  · exact Or.inl ⟨he, by simp [he]⟩
  · cases htx : DBManager.edit_category_tx s category_id (clean name) with
    | none => exact Or.inr (Or.inl ⟨he, rfl, by simp [he]⟩)
    | some r => exact Or.inr (Or.inr ⟨r, he, rfl, by simp [he]⟩)

theorem delete_category_cases (s : DBState) (category_id : Nat) :
    (DBManager.delete_category_tx s category_id = none
        ∧ DBManager.delete_category s category_id
            = ("Failed to delete a category.", s))
      ∨ (∃ r, DBManager.delete_category_tx s category_id = some r
        ∧ DBManager.delete_category s category_id = r) := by
  unfold DBManager.delete_category
  cases htx : DBManager.delete_category_tx s category_id with
  | none => exact Or.inl ⟨rfl, by simp⟩
  | some r => exact Or.inr ⟨r, rfl, by simp⟩

theorem add_item_cases (s : DBState) (name descr : String)
    (category_id user_id : Nat) :
    (clean name = ""
        ∧ DBManager.add_item s name descr category_id user_id
            = ((none, "Invalid item name."), s))
      ∨ (clean name ≠ ""
        ∧ DBManager.add_item_tx s (clean name) (clean descr)
            category_id user_id = none
        ∧ DBManager.add_item s name descr category_id user_id
            = ((none, "Failed to add an item."), s))
      ∨ (∃ iid s2, clean name ≠ ""
        ∧ DBManager.add_item_tx s (clean name) (clean descr)
            category_id user_id = some (iid, s2)
        ∧ DBManager.add_item s name descr category_id user_id
            = ((some iid, "Added new item '" ++ clean name ++ "'."),
                s2)) := by
  unfold DBManager.add_item
  by_cases he : clean name = ""
  · exact Or.inl ⟨he, by simp [he]⟩
  · cases htx : DBManager.add_item_tx s (clean name) (clean descr)
        category_id user_id with
    | none => exact Or.inr (Or.inl ⟨he, rfl, by simp [he]⟩)
    | some r =>
      obtain ⟨iid, s2⟩ := r
      exact Or.inr (Or.inr ⟨iid, s2, he, rfl, by simp [he]⟩)

theorem edit_item_cases (s : DBState) (item_id : Nat)
    (name descr : String) (category_id : Nat) :
    (clean name = ""
        ∧ DBManager.edit_item s item_id name descr category_id
            = ("Invalid item name.", s))
      ∨ (clean name ≠ ""
        ∧ DBManager.edit_item_tx s item_id (clean name) (clean descr)
            category_id = none
        ∧ DBManager.edit_item s item_id name descr category_id
            = ("Failed to edit an item.", s))
      ∨ (∃ r, clean name ≠ ""
        ∧ DBManager.edit_item_tx s item_id (clean name) (clean descr)
            category_id = some r
        ∧ DBManager.edit_item s item_id name descr category_id = r) := by
  unfold DBManager.edit_item
  by_cases he : clean name = ""
  · exact Or.inl ⟨he, by simp [he]⟩
  · cases htx : DBManager.edit_item_tx s item_id (clean name)
        (clean descr) category_id with
    | none => exact Or.inr (Or.inl ⟨he, rfl, by simp [he]⟩)
    | some r => exact Or.inr (Or.inr ⟨r, he, rfl, by simp [he]⟩)

theorem delete_item_cases (s : DBState) (item_id : Nat) :
    (DBManager.delete_item_tx s item_id = none
        ∧ DBManager.delete_item s item_id
            = ("Failed to delete an item.", s))
      ∨ (∃ r, DBManager.delete_item_tx s item_id = some r
        ∧ DBManager.delete_item s item_id = r) := by
  unfold DBManager.delete_item
  cases htx : DBManager.delete_item_tx s item_id with
  | none => exact Or.inl ⟨rfl, by simp⟩
  | some r => exact Or.inr ⟨r, rfl, by simp⟩

/-- A small concrete database used to evaluate the theorems on explicit
inputs: two users, one category and one item each. -/
def exState : DBState :=
  ⟨[⟨1, "u"⟩, ⟨2, "v"⟩],
   [⟨1, "c", 1⟩, ⟨2, "d", 2⟩],
   [⟨1, "i", "e", 0, 1, 1⟩, ⟨2, "j", "f", 0, 2, 2⟩],
   3, 3, 3, 1⟩

/-- C5: no DBManager operation lets an exception reach its caller: a
validation failure or an exception in the session body (`tx = none`)
makes the operation return the documented plain-text sentinel — `None`
for `get_or_add_user_id`, `None` plus a failure message for the add
operations, just the failure message for edit and delete, `None` for
`get_category` and `get_item` when their `one()` call raises (the id
filter does not match exactly one row), and the empty ordered dict for
the list queries `get_category_list`, `get_latest_items`, and
`get_category_items` when they have no rows to report — always with
the state unchanged. -/
theorem C5_errors_caught_return_sentinels (s : DBState)
    (name descr auth_id : String) (category_id item_id user_id : Nat)
    (num : Nat) (uid : Option Nat) :
    (clean auth_id = "" →
        DBManager.get_or_add_user_id s auth_id = (none, s))
      ∧ (clean name = "" → DBManager.add_category s name user_id
          = ((none, "Invalid category name."), s))
      ∧ (clean name ≠ "" →
          DBManager.add_category_tx s (clean name) user_id = none →
          DBManager.add_category s name user_id
            = ((none, "Failed to add a category."), s))
      ∧ (clean name = "" → DBManager.edit_category s category_id name
          = ("Invalid category name.", s))
      ∧ (clean name ≠ "" →
          DBManager.edit_category_tx s category_id (clean name) = none →
          DBManager.edit_category s category_id name
            = ("Failed to edit a category.", s))
      ∧ (DBManager.delete_category_tx s category_id = none →
          DBManager.delete_category s category_id
            = ("Failed to delete a category.", s))
      ∧ (clean name = "" →
          DBManager.add_item s name descr category_id user_id
            = ((none, "Invalid item name."), s))
      ∧ (clean name ≠ "" →
          DBManager.add_item_tx s (clean name) (clean descr) category_id
            user_id = none →
          DBManager.add_item s name descr category_id user_id
            = ((none, "Failed to add an item."), s))
      ∧ (clean name = "" →
          DBManager.edit_item s item_id name descr category_id
            = ("Invalid item name.", s))
      ∧ (clean name ≠ "" →
          DBManager.edit_item_tx s item_id (clean name) (clean descr)
            category_id = none →
          DBManager.edit_item s item_id name descr category_id
            = ("Failed to edit an item.", s))
      ∧ (DBManager.delete_item_tx s item_id = none →
          DBManager.delete_item s item_id
            = ("Failed to delete an item.", s))
      ∧ ((∀ c, s.categories.filter (fun c2 => c2.id == category_id)
            ≠ [c]) →
          DBManager.get_category s category_id = (none, s))
      ∧ ((∀ i, s.items.filter (fun i2 => i2.id == item_id) ≠ [i]) →
          DBManager.get_item s item_id = (none, s))
      ∧ (s.categories = [] →
          DBManager.get_category_list s uid = ([], s))
      ∧ (s.items = [] → DBManager.get_latest_items s num = ([], s))
      ∧ (s.items.filter (fun i => i.category_id == category_id) = [] →
          DBManager.get_category_items s category_id = ([], s)) := by
  refine ⟨?_, ?_, ?_, ?_, ?_, ?_, ?_, ?_, ?_, ?_, ?_, ?_, ?_, ?_, ?_,
    ?_⟩
  · intro he
    rcases get_or_add_user_id_cases s auth_id with ⟨_, hr⟩
      | ⟨u, hne, _, _⟩ | ⟨hne, _, _⟩
    · exact hr
    · exact absurd he hne
    · exact absurd he hne
  · intro he
    rcases add_category_cases s name user_id with ⟨_, hr⟩
      | ⟨hne, _, _⟩ | ⟨_, _, hne, _, _⟩
    · exact hr
    · exact absurd he hne
    · exact absurd he hne
  · intro hne htx
    rcases add_category_cases s name user_id with ⟨he, _⟩
      | ⟨_, _, hr⟩ | ⟨_, _, _, htx2, _⟩
    · exact absurd he hne
    · exact hr
    · rw [htx] at htx2; exact absurd htx2 (by simp)
  · intro he
    rcases edit_category_cases s category_id name with ⟨_, hr⟩
      | ⟨hne, _, _⟩ | ⟨_, hne, _, _⟩
    · exact hr
    · exact absurd he hne
    · exact absurd he hne
  · intro hne htx
    rcases edit_category_cases s category_id name with ⟨he, _⟩
      | ⟨_, _, hr⟩ | ⟨r, _, htx2, _⟩
    · exact absurd he hne
    · exact hr
    · rw [htx] at htx2; exact absurd htx2 (by simp)
  · intro htx
    rcases delete_category_cases s category_id with ⟨_, hr⟩
      | ⟨r, htx2, _⟩
    · exact hr
    · rw [htx] at htx2; exact absurd htx2 (by simp)
  · intro he
    rcases add_item_cases s name descr category_id user_id with ⟨_, hr⟩
      | ⟨hne, _, _⟩ | ⟨_, _, hne, _, _⟩
    · exact hr
    · exact absurd he hne
    · exact absurd he hne
  · intro hne htx
    rcases add_item_cases s name descr category_id user_id with ⟨he, _⟩
      | ⟨_, _, hr⟩ | ⟨_, _, _, htx2, _⟩
    · exact absurd he hne
    · exact hr
    · rw [htx] at htx2; exact absurd htx2 (by simp)
  · intro he
    rcases edit_item_cases s item_id name descr category_id
      with ⟨_, hr⟩ | ⟨hne, _, _⟩ | ⟨_, hne, _, _⟩
    · exact hr
    · exact absurd he hne
    · exact absurd he hne
  · intro hne htx
    rcases edit_item_cases s item_id name descr category_id
      with ⟨he, _⟩ | ⟨_, _, hr⟩ | ⟨r, _, htx2, _⟩
    · exact absurd he hne
    · exact hr
    · rw [htx] at htx2; exact absurd htx2 (by simp)
  · intro htx
    rcases delete_item_cases s item_id with ⟨_, hr⟩ | ⟨r, htx2, _⟩
    · exact hr
    · rw [htx] at htx2; exact absurd htx2 (by simp)
  · intro h
    unfold DBManager.get_category
    cases hfl : s.categories.filter (fun c2 => c2.id == category_id)
        with
    | nil => rfl
    | cons c0 tl =>
      cases tl with
      | nil =>
        rw [hfl] at h
        exact absurd rfl (h c0)
      | cons c1 tl2 => rfl
  · intro h
    unfold DBManager.get_item
    cases hfl : s.items.filter (fun i2 => i2.id == item_id) with
    | nil => rfl
    | cons i0 tl =>
      cases tl with
      | nil =>
        rw [hfl] at h
        exact absurd rfl (h i0)
      | cons i1 tl2 => rfl
  · intro he
    unfold DBManager.get_category_list
    cases uid <;> simp [he, List.insertionSort]
  · intro he
    simp [DBManager.get_latest_items, DBManager.joined, he,
      List.insertionSort]
  · intro hfl
    unfold DBManager.get_category_items
    rw [hfl]
    simp [List.insertionSort]

/-- C6: atomicity on error: every failing operation — validation
failure before the session as well as an exception inside the session
body (`tx = none`, rolled back by `_get_session`) — returns with the
database state exactly as it was before the call. -/
theorem C6_failed_operation_preserves_state (s : DBState)
    (name descr auth_id : String) (category_id item_id user_id : Nat) :
    ((DBManager.get_or_add_user_id s auth_id).1 = none →
        (DBManager.get_or_add_user_id s auth_id).2 = s)
      ∧ ((DBManager.add_category s name user_id).1.1 = none →
        (DBManager.add_category s name user_id).2 = s)
      ∧ (clean name = "" →
        (DBManager.edit_category s category_id name).2 = s)
      ∧ (DBManager.edit_category_tx s category_id (clean name) = none →
        (DBManager.edit_category s category_id name).2 = s)
      ∧ (DBManager.delete_category_tx s category_id = none →
        (DBManager.delete_category s category_id).2 = s)
      ∧ ((DBManager.add_item s name descr category_id user_id).1.1
            = none →
        (DBManager.add_item s name descr category_id user_id).2 = s)
      ∧ (clean name = "" →
        (DBManager.edit_item s item_id name descr category_id).2 = s)
      ∧ (DBManager.edit_item_tx s item_id (clean name) (clean descr)
            category_id = none →
        (DBManager.edit_item s item_id name descr category_id).2 = s)
      ∧ (DBManager.delete_item_tx s item_id = none →
        (DBManager.delete_item s item_id).2 = s) := by
  refine ⟨?_, ?_, ?_, ?_, ?_, ?_, ?_, ?_, ?_⟩
  · intro h
    rcases get_or_add_user_id_cases s auth_id with ⟨_, hr⟩
      | ⟨u, _, _, hr⟩ | ⟨_, _, hr⟩
    · rw [hr]
    · rw [hr] at h; exact absurd h (by simp)
    · rw [hr] at h; exact absurd h (by simp)
  · intro h
    rcases add_category_cases s name user_id with ⟨_, hr⟩
      | ⟨_, _, hr⟩ | ⟨cid, s2, _, _, hr⟩
    · rw [hr]
    · rw [hr]
    · rw [hr] at h; exact absurd h (by simp)
  · intro he
    rcases edit_category_cases s category_id name with ⟨_, hr⟩
      | ⟨hne, _, _⟩ | ⟨_, hne, _, _⟩
    · rw [hr]
    · exact absurd he hne
    · exact absurd he hne
  · intro htx
    rcases edit_category_cases s category_id name with ⟨_, hr⟩
      | ⟨_, _, hr⟩ | ⟨r, _, htx2, _⟩
    · rw [hr]
    · rw [hr]
    · rw [htx] at htx2; exact absurd htx2 (by simp)
  · intro htx
    rcases delete_category_cases s category_id with ⟨_, hr⟩
      | ⟨r, htx2, _⟩
    · rw [hr]
    · rw [htx] at htx2; exact absurd htx2 (by simp)
  · intro h
    rcases add_item_cases s name descr category_id user_id with ⟨_, hr⟩
      | ⟨_, _, hr⟩ | ⟨iid, s2, _, _, hr⟩
    · rw [hr]
    · rw [hr]
    · rw [hr] at h; exact absurd h (by simp)
  · intro he
    rcases edit_item_cases s item_id name descr category_id
      with ⟨_, hr⟩ | ⟨hne, _, _⟩ | ⟨_, hne, _, _⟩
    · rw [hr]
    · exact absurd he hne
    · exact absurd he hne
  · intro htx
    rcases edit_item_cases s item_id name descr category_id
      with ⟨_, hr⟩ | ⟨_, _, hr⟩ | ⟨r, _, htx2, _⟩
    · rw [hr]
    · rw [hr]
    · rw [htx] at htx2; exact absurd htx2 (by simp)
  · intro htx
    rcases delete_item_cases s item_id with ⟨_, hr⟩ | ⟨r, htx2, _⟩
    · rw [hr]
    · rw [htx] at htx2; exact absurd htx2 (by simp)

/-- C7: the JSON export is read-only: for every resource string the
dispatch in `ContentManager.get_content` and the `serve_json` handler
leave every table unchanged, and an unrecognized resource yields `None`
content and a 404 response. -/
theorem C7_json_export_read_only (s : DBState) (resource : String)
    (num : Option Nat) (id_ : Option Nat) :
    (ContentManager.get_content s resource num id_).2 = s
      ∧ (serve_json s resource num id_).2 = s
      ∧ (resource ∉ (["categories", "latest_items", "category",
            "item"] : List String) →
          (ContentManager.get_content s resource num id_).1 = none
            ∧ (serve_json s resource num id_).1.1 = 404) := by
  have hs : (serve_json s resource num id_).2
      = (ContentManager.get_content s resource num id_).2 := by
    unfold serve_json
    cases hc : ContentManager.get_content s resource num id_ with
    | mk c s1 => cases c <;> rfl
  refine ⟨get_content_state s resource num id_,
    hs.trans (get_content_state s resource num id_), ?_⟩
  intro hr
  simp only [List.mem_cons, List.not_mem_nil, or_false, not_or] at hr
  obtain ⟨hr1, hr2, hr3, hr4⟩ := hr
  have hnone : (ContentManager.get_content s resource num id_).1
      = none := by
    unfold ContentManager.get_content
    rw [if_neg hr1, if_neg (fun hh => hr2 hh.1), if_neg hr3, if_neg hr4]
  refine ⟨hnone, ?_⟩
  unfold serve_json
  cases hc : ContentManager.get_content s resource num id_ with
  | mk c s1 =>
    rw [hc] at hnone
    cases c with
    | none => rfl
    | some c => exact absurd hnone (by simp)

/-- Witness for C7 at a concrete unrecognized resource. -/
theorem C7_json_export_read_only_witness :
    (ContentManager.get_content DBState.init "users" none none).1 = none
      ∧ (serve_json DBState.init "users" none none).1.1 = 404 :=
  (C7_json_export_read_only DBState.init "users" none none).2.2
    (by decide)

/-- C9: `get_or_add_user_id` is idempotent and creates no duplicates:
an empty cleaned auth ID yields `None` and no new row; otherwise a
second call with the same auth ID returns the same user ID and the same
state as the first (so no second row is added); and on reachable states
auth IDs are pairwise distinct, so at most one User row exists per
auth ID. -/
theorem C9_get_or_add_user_id_idempotent (s : DBState)
    (auth_id : String) :
    (clean auth_id = "" →
        DBManager.get_or_add_user_id s auth_id = (none, s))
      ∧ (clean auth_id ≠ "" →
        DBManager.get_or_add_user_id
            (DBManager.get_or_add_user_id s auth_id).2 auth_id
          = DBManager.get_or_add_user_id s auth_id)
      ∧ (Reachable s →
        s.users.Pairwise (fun a b => a.auth_id ≠ b.auth_id)) := by
  refine ⟨?_, ?_, ?_⟩
  · intro he
    rcases get_or_add_user_id_cases s auth_id with ⟨_, hr⟩
      | ⟨u, hne, _, _⟩ | ⟨hne, _, _⟩
    · exact hr
    · exact absurd he hne
    · exact absurd he hne
  · intro hne
    rcases get_or_add_user_id_cases s auth_id with ⟨he, _⟩
      | ⟨u, _, hf, hr⟩ | ⟨_, hf, hr⟩
    · exact absurd he hne
    · rw [hr]; exact hr
    · rw [hr]
      unfold DBManager.get_or_add_user_id
      rw [if_neg hne]
      dsimp only
      rw [List.find?_append, hf]
      simp [List.find?]
  · intro hre
    exact List.Pairwise.imp (fun hab => hab.2)
      ((reachable_dbinv hre).users_distinct)

/-- Witness for C9: a repeated sign-in with the same auth ID returns
the same result on the fresh database. -/
theorem C9_get_or_add_user_id_idempotent_witness :
    DBManager.get_or_add_user_id
        (DBManager.get_or_add_user_id DBState.init "alice").2 "alice"
      = DBManager.get_or_add_user_id DBState.init "alice" :=
  (C9_get_or_add_user_id_idempotent DBState.init "alice").2.1
    (by decide)

/-- On success, `delete_category` removed the category row and, by the
cascade, every item row of that category. -/
theorem delete_category_success_shape (s : DBState) (cid : Nat) :
    (DBManager.delete_category s cid).1
        ≠ "Failed to delete a category." →
    (DBManager.delete_category s cid).2.categories
        = s.categories.filter (fun c => c.id != cid)
      ∧ (DBManager.delete_category s cid).2.items
        = s.items.filter (fun i => i.category_id != cid) := by
  unfold DBManager.delete_category DBManager.delete_category_tx
  cases s.categories.filter (fun c => c.id == cid) with
  | nil => exact fun h => absurd rfl h
  | cons c0 tl =>
    cases tl with
    | nil => exact fun _ => ⟨rfl, rfl⟩
    | cons c1 tl2 => exact fun h => absurd rfl h

/-- C2: deletion cascades over ownership: a successful
`delete_category` leaves no item of that category behind, and deleting
a User row at the SQL level removes every category and every item whose
`user_id` references that user. -/
theorem C2_delete_cascades (s : DBState) (category_id user_id : Nat) :
    ((DBManager.delete_category s category_id).1
        ≠ "Failed to delete a category." →
      ∀ i ∈ (DBManager.delete_category s category_id).2.items,
        i.category_id ≠ category_id)
    ∧ (∀ c ∈ (deleteUserRow s user_id).categories, c.user_id ≠ user_id)
    ∧ (∀ i ∈ (deleteUserRow s user_id).items, i.user_id ≠ user_id) := by
  refine ⟨?_, ?_, ?_⟩
  · intro h i hi
    rw [(delete_category_success_shape s category_id h).2] at hi
    have hm := List.mem_filter.mp hi
    simpa using hm.2
  · intro c hc
    have hm := List.mem_filter.mp hc
    simpa using hm.2
  · intro i hi
    have hm := List.mem_filter.mp hi
    have h2 := hm.2
    simp only [Bool.and_eq_true, bne_iff_ne] at h2
    exact h2.1

/-- Witness for C2: deleting category 1 of the example database
succeeds, and the surviving item belongs to category 2. -/
theorem C2_delete_cascades_witness :
    (DBManager.delete_category exState 1).1
        ≠ "Failed to delete a category."
      ∧ (⟨2, "j", "f", 0, 2, 2⟩ : ItemRow).category_id ≠ 1 :=
  ⟨by decide, (C2_delete_cascades exState 1 0).1 (by decide)
    ⟨2, "j", "f", 0, 2, 2⟩ (by decide)⟩

/-- C3: database-wide name uniqueness: on every reachable state no two
categories and no two items share a name, and an add or edit that would
duplicate an existing name fails with the failure message and changes
nothing. -/
theorem C3_names_unique (s : DBState) (name descr : String)
    (category_id item_id user_id : Nat) :
    (Reachable s →
      s.categories.Pairwise (fun a b => a.name ≠ b.name)
        ∧ s.items.Pairwise (fun a b => a.name ≠ b.name))
    ∧ (clean name ≠ "" → (∃ c ∈ s.categories, c.name = clean name) →
        DBManager.add_category s name user_id
          = ((none, "Failed to add a category."), s))
    ∧ (clean name ≠ "" →
        (∃ c ∈ s.categories, c.id ≠ category_id ∧ c.name = clean name) →
        DBManager.edit_category s category_id name
          = ("Failed to edit a category.", s))
    ∧ (clean name ≠ "" → (∃ i ∈ s.items, i.name = clean name) →
        DBManager.add_item s name descr category_id user_id
          = ((none, "Failed to add an item."), s))
    ∧ (clean name ≠ "" →
        (∃ i ∈ s.items, i.id ≠ item_id ∧ i.name = clean name) →
        DBManager.edit_item s item_id name descr category_id
          = ("Failed to edit an item.", s)) := by
  refine ⟨?_, ?_, ?_, ?_, ?_⟩
  · intro hre
    have hi := reachable_dbinv hre
    exact ⟨hi.cats_distinct.imp (fun hab => hab.2),
      hi.items_distinct.imp (fun hab => hab.2)⟩
  · intro hne hdup
    have hany : s.categories.any (fun c => c.name == clean name)
        = true := by
      obtain ⟨c, hc, hcn⟩ := hdup
      exact List.any_eq_true.mpr ⟨c, hc, by simp [hcn]⟩
    have htx : DBManager.add_category_tx s (clean name) user_id
        = none := by
      unfold DBManager.add_category_tx
      rw [if_pos (by simp [hany])]
    rcases add_category_cases s name user_id with ⟨he, _⟩
      | ⟨_, _, hr⟩ | ⟨cid, s2, _, htx2, _⟩
    · exact absurd he hne
    · exact hr
    · rw [htx] at htx2; exact absurd htx2 (by simp)
  · intro hne hdup
    have hany : s.categories.any
        (fun c => c.id != category_id && c.name == clean name)
        = true := by
      obtain ⟨c, hc, hcid, hcn⟩ := hdup
      exact List.any_eq_true.mpr ⟨c, hc, by simp [hcid, hcn]⟩
    have htx : DBManager.edit_category_tx s category_id (clean name)
        = none := by
      unfold DBManager.edit_category_tx
      cases s.categories.filter (fun c => c.id == category_id) with
      | nil => rfl
      | cons c0 tl =>
        cases tl with
        | nil =>
          dsimp only
          rw [if_pos hany]
        | cons c1 tl2 => rfl
    rcases edit_category_cases s category_id name with ⟨he, _⟩
      | ⟨_, _, hr⟩ | ⟨r, _, htx2, _⟩
    · exact absurd he hne
    · exact hr
    · rw [htx] at htx2; exact absurd htx2 (by simp)
  · intro hne hdup
    have hany : s.items.any (fun i => i.name == clean name) = true := by
      obtain ⟨i, hi, hin⟩ := hdup
      exact List.any_eq_true.mpr ⟨i, hi, by simp [hin]⟩
    have htx : DBManager.add_item_tx s (clean name) (clean descr)
        category_id user_id = none := by
      unfold DBManager.add_item_tx
      rw [if_pos (by simp [hany])]
    rcases add_item_cases s name descr category_id user_id with ⟨he, _⟩
      | ⟨_, _, hr⟩ | ⟨iid, s2, _, htx2, _⟩
    · exact absurd he hne
    · exact hr
    · rw [htx] at htx2; exact absurd htx2 (by simp)
  · intro hne hdup
    have hany : s.items.any
        (fun i => i.id != item_id && i.name == clean name) = true := by
      obtain ⟨i, hi, hiid, hin⟩ := hdup
      exact List.any_eq_true.mpr ⟨i, hi, by simp [hiid, hin]⟩
    have htx : DBManager.edit_item_tx s item_id (clean name)
        (clean descr) category_id = none := by
      unfold DBManager.edit_item_tx
      cases s.items.filter (fun i => i.id == item_id) with
      | nil => rfl
      | cons i0 tl =>
        cases tl with
        | nil =>
          dsimp only
          rw [if_pos (by simp [hany])]
        | cons i1 tl2 => rfl
    rcases edit_item_cases s item_id name descr category_id
      with ⟨he, _⟩ | ⟨_, _, hr⟩ | ⟨r, _, htx2, _⟩
    · exact absurd he hne
    · exact hr
    · rw [htx] at htx2; exact absurd htx2 (by simp)

/-- Witness for C3: adding a second category named "c" to the example
database fails and leaves the state unchanged. -/
theorem C3_names_unique_witness :
    DBManager.add_category exState "c" 1
      = ((none, "Failed to add a category."), exState) :=
  (C3_names_unique exState "c" "x" 0 0 1).2.1 (by decide)
    ⟨⟨1, "c", 1⟩, by decide, by decide⟩

/-- C4: referential integrity on every reachable state: every item
references an existing category and an existing user, every category an
existing user. -/
theorem C4_referential_integrity (s : DBState) (h : Reachable s) :
    (∀ c ∈ s.categories, ∃ u ∈ s.users, u.id = c.user_id)
      ∧ (∀ i ∈ s.items, ∃ c ∈ s.categories, c.id = i.category_id)
      ∧ (∀ i ∈ s.items, ∃ u ∈ s.users, u.id = i.user_id) :=
  ⟨(reachable_dbinv h).cats_fk, (reachable_dbinv h).items_fk_cat,
    (reachable_dbinv h).items_fk_user⟩

/-- Witness for C4 on the state reached by signing in one user, adding
one category and one item. -/
theorem C4_referential_integrity_witness :
    ∃ u ∈ (DBManager.add_item (DBManager.add_category
        (DBManager.get_or_add_user_id DBState.init "u").2 "c" 1).2
        "i" "d" 1 1).2.users,
      u.id = (⟨1, "c", 1⟩ : CategoryRow).user_id :=
  (C4_referential_integrity _ (Reachable.addItem (Reachable.addCat
      (Reachable.user Reachable.init "u") "c" 1) "i" "d" 1 1)).1
    ⟨1, "c", 1⟩ (by decide)

/-- Shape of a committed `add_category` session: the new row carries the
next id and the given (already cleaned) name. -/
theorem add_category_tx_shape {s : DBState} {name : String}
    {user_id cid : Nat} {s2 : DBState}
    (h : DBManager.add_category_tx s name user_id = some (cid, s2)) :
    cid = s.nextCategoryId
      ∧ s2 = { s with
          categories :=
            s.categories ++ [⟨s.nextCategoryId, name, user_id⟩],
          nextCategoryId := s.nextCategoryId + 1 } := by
  unfold DBManager.add_category_tx at h
  by_cases hg : (s.categories.any (fun c => c.name == name)
      || !(s.users.any (fun u => u.id == user_id))) = true
  · rw [if_pos hg] at h; exact absurd h (by simp)
  · rw [if_neg hg] at h
    rw [Option.some.injEq, Prod.mk.injEq] at h
    exact ⟨h.1.symm, h.2.symm⟩

/-- Shape of a committed `add_item` session. -/
theorem add_item_tx_shape {s : DBState} {name descr : String}
    {category_id user_id iid : Nat} {s2 : DBState}
    (h : DBManager.add_item_tx s name descr category_id user_id
        = some (iid, s2)) :
    iid = s.nextItemId
      ∧ s2 = { s with
          items := s.items ++ [⟨s.nextItemId, name, descr, s.clock,
            category_id, user_id⟩],
          nextItemId := s.nextItemId + 1,
          clock := s.clock + 1 } := by
  unfold DBManager.add_item_tx at h
  by_cases hg : (s.items.any (fun i => i.name == name)
      || !(s.categories.any (fun c => c.id == category_id))
      || !(s.users.any (fun u => u.id == user_id))) = true
  · rw [if_pos hg] at h; exact absurd h (by simp)
  · rw [if_neg hg] at h
    rw [Option.some.injEq, Prod.mk.injEq] at h
    exact ⟨h.1.symm, h.2.symm⟩

/-- Shape of a committed `edit_category` session: only the targeted
row's name is replaced. -/
theorem edit_category_tx_shape {s : DBState} {category_id : Nat}
    {name : String} {r : String × DBState}
    (h : DBManager.edit_category_tx s category_id name = some r) :
    r.2 = { s with categories := s.categories.map (fun c =>
        if c.id == category_id then { c with name := name }
        else c) } := by
  unfold DBManager.edit_category_tx at h
  cases hfl : s.categories.filter (fun c => c.id == category_id) with
  | nil => rw [hfl] at h; exact absurd h (by simp)
  | cons c0 tl =>
    cases tl with
    | cons c1 tl2 => rw [hfl] at h; exact absurd h (by simp)
    | nil =>
      rw [hfl] at h
      dsimp only at h
      by_cases hg : (s.categories.any
          (fun c => c.id != category_id && c.name == name)) = true
      · rw [if_pos hg] at h; exact absurd h (by simp)
      · rw [if_neg hg] at h
        rw [← Option.some.inj h]

/-- Shape of a committed `edit_item` session: only the targeted row's
name, description and category are replaced. -/
theorem edit_item_tx_shape {s : DBState} {item_id : Nat}
    {name descr : String} {category_id : Nat} {r : String × DBState}
    (h : DBManager.edit_item_tx s item_id name descr category_id
        = some r) :
    r.2 = { s with items := s.items.map (fun i =>
        if i.id == item_id then
          { i with
              name := name,
              description := descr,
              category_id := category_id }
        else i) } := by
  unfold DBManager.edit_item_tx at h
  cases hfl : s.items.filter (fun i => i.id == item_id) with
  | nil => rw [hfl] at h; exact absurd h (by simp)
  | cons i0 tl =>
    cases tl with
    | cons i1 tl2 => rw [hfl] at h; exact absurd h (by simp)
    | nil =>
      rw [hfl] at h
      dsimp only at h
      by_cases hg : (s.items.any
            (fun i => i.id != item_id && i.name == name)
          || !(s.categories.any (fun c => c.id == category_id)))
          = true
      · rw [if_pos hg] at h; exact absurd h (by simp)
      · rw [if_neg hg] at h
        rw [← Option.some.inj h]

/-- C8: HTML sanitization at the DBManager boundary: every stored name
and description is the `bleach`-cleaned input, and every string the
read operations hand back is free of HTML tags (`get_latest_items`
returns the stored strings unchanged, which on reachable states are
already cleaned). -/
theorem C8_html_sanitized (s : DBState) (name descr : String)
    (category_id item_id user_id num : Nat) (uid : Option Nat) :
    (∀ cid, (DBManager.add_category s name user_id).1.1 = some cid →
      (DBManager.add_category s name user_id).2.categories
        = s.categories ++ [⟨cid, clean name, user_id⟩])
    ∧ (∀ c ∈ (DBManager.edit_category s category_id name).2.categories,
        c ∈ s.categories ∨ c.name = clean name)
    ∧ (∀ iid,
        (DBManager.add_item s name descr category_id user_id).1.1
          = some iid →
        (DBManager.add_item s name descr category_id user_id).2.items
          = s.items ++ [⟨iid, clean name, clean descr, s.clock,
              category_id, user_id⟩])
    ∧ (∀ i ∈ (DBManager.edit_item s item_id name descr
          category_id).2.items,
        i ∈ s.items ∨ (i.name = clean name
          ∧ i.description = clean descr))
    ∧ (∀ cv, (DBManager.get_category s category_id).1 = some cv →
        TagFree cv.name)
    ∧ (∀ p ∈ (DBManager.get_category_list s uid).1, TagFree p.2)
    ∧ (∀ iv, (DBManager.get_item s item_id).1 = some iv →
        TagFree iv.name ∧ TagFree iv.description)
    ∧ (∀ p ∈ (DBManager.get_category_items s category_id).1,
        TagFree p.2)
    ∧ (Reachable s → ∀ p ∈ (DBManager.get_latest_items s num).1,
        TagFree p.2.name ∧ TagFree p.2.category_name) := by
  refine ⟨?_, ?_, ?_, ?_, ?_, ?_, ?_, ?_, ?_⟩
  · intro cid h
    rcases add_category_cases s name user_id with ⟨_, hr⟩
      | ⟨_, _, hr⟩ | ⟨cid2, s2, _, htx, hr⟩
    · rw [hr] at h; exact absurd h (by simp)
    · rw [hr] at h; exact absurd h (by simp)
    · obtain ⟨hcid, hs2⟩ := add_category_tx_shape htx
      subst hcid
      subst hs2
      rw [hr] at h ⊢
      have h4 := Option.some.inj
        (show some s.nextCategoryId = some cid from h)
      rw [← h4]
  · intro c hc
    rcases edit_category_cases s category_id name with ⟨_, hr⟩
      | ⟨_, _, hr⟩ | ⟨r, _, htx, hr⟩
    · rw [hr] at hc; exact Or.inl hc
    · rw [hr] at hc; exact Or.inl hc
    · rw [hr] at hc
      rw [edit_category_tx_shape htx] at hc
      obtain ⟨a, ha, hae⟩ := List.mem_map.mp hc
      by_cases hxa : (a.id == category_id) = true
      · right; rw [← hae, if_pos hxa]
      · left
        rw [← hae, if_neg hxa]
        exact ha
  · intro iid h
    rcases add_item_cases s name descr category_id user_id with ⟨_, hr⟩
      | ⟨_, _, hr⟩ | ⟨iid2, s2, _, htx, hr⟩
    · rw [hr] at h; exact absurd h (by simp)
    · rw [hr] at h; exact absurd h (by simp)
    · obtain ⟨hiid, hs2⟩ := add_item_tx_shape htx
      subst hiid
      subst hs2
      rw [hr] at h ⊢
      have h4 := Option.some.inj
        (show some s.nextItemId = some iid from h)
      rw [← h4]
  · intro i hi
    rcases edit_item_cases s item_id name descr category_id
      with ⟨_, hr⟩ | ⟨_, _, hr⟩ | ⟨r, _, htx, hr⟩
    · rw [hr] at hi; exact Or.inl hi
    · rw [hr] at hi; exact Or.inl hi
    · rw [hr] at hi
      rw [edit_item_tx_shape htx] at hi
      obtain ⟨a, ha, hae⟩ := List.mem_map.mp hi
      by_cases hxa : (a.id == item_id) = true
      · right
        constructor
        · rw [← hae, if_pos hxa]
        · rw [← hae, if_pos hxa]
      · left
        rw [← hae, if_neg hxa]
        exact ha
  · intro cv h
    unfold DBManager.get_category at h
    cases hfl : s.categories.filter (fun c => c.id == category_id) with
    | nil => rw [hfl] at h; exact absurd h (by simp)
    | cons c0 tl =>
      cases tl with
      | cons c1 tl2 => rw [hfl] at h; exact absurd h (by simp)
      | nil =>
        rw [hfl] at h
        have h2 : some (⟨c0.id, clean c0.name, c0.user_id⟩ :
            CategoryView) = some cv := h
        rw [← Option.some.inj h2]
        exact tagFree_clean _
  · intro p hp
    unfold DBManager.get_category_list at hp
    obtain ⟨c, hc, hce⟩ := List.mem_map.mp hp
    rw [← hce]
    exact tagFree_clean _
  · intro iv h
    unfold DBManager.get_item at h
    cases hfl : s.items.filter (fun i => i.id == item_id) with
    | nil => rw [hfl] at h; exact absurd h (by simp)
    | cons i0 tl =>
      cases tl with
      | cons i1 tl2 => rw [hfl] at h; exact absurd h (by simp)
      | nil =>
        rw [hfl] at h
        have h2 : some (⟨i0.id, clean i0.name, clean i0.description,
            i0.created, i0.category_id, i0.user_id⟩ : ItemView)
            = some iv := h
        rw [← Option.some.inj h2]
        exact ⟨tagFree_clean _, tagFree_clean _⟩
  · intro p hp
    unfold DBManager.get_category_items at hp
    obtain ⟨i, hi, hie⟩ := List.mem_map.mp hp
    rw [← hie]
    exact tagFree_clean _
  · intro hre p hp
    have hinv := reachable_dbinv hre
    unfold DBManager.get_latest_items at hp
    obtain ⟨q, hq, hqe⟩ := List.mem_map.mp hp
    have hq2 : q ∈ List.insertionSort DBManager.latestLe
        (DBManager.joined s) :=
      List.mem_of_mem_take hq
    have hq3 : q ∈ DBManager.joined s :=
      (List.perm_insertionSort DBManager.latestLe _).subset hq2
    obtain ⟨i, hi, hqi⟩ := List.mem_flatMap.mp hq3
    obtain ⟨c, hc, hce⟩ := List.mem_map.mp hqi
    rw [← hqe, ← hce]
    exact ⟨(hinv.items_clean i hi).1,
      (hinv.cats_clean c (List.mem_of_mem_filter hc)).1⟩

/-- Witness for C8: adding an item with a script tag in name and
description stores the stripped strings. -/
theorem C8_html_sanitized_witness :
    (DBManager.add_item exState "<b>k</b>" "x<script>y</script>" 1 1).2.items
      = exState.items ++ [⟨3, "k", "xy", 1, 1, 1⟩] :=
  (C8_html_sanitized exState "<b>k</b>" "x<script>y</script>"
      1 0 1 0 none).2.2.1 3 (by decide)

/-- C10: `get_latest_items num` returns at most `num` entries, ordered
by creation timestamp descending with ties broken by ascending item
name; each entry pairs an item id with the item's name and the id and
name of the category its `category_id` joins to; an empty items table
yields the empty result. -/
theorem C10_get_latest_items_ordered (s : DBState) (num : Nat) :
    (∃ l : List (ItemRow × CategoryRow),
      List.Sorted DBManager.latestLe l
        ∧ l.length ≤ num
        ∧ (∀ q ∈ l, q.1 ∈ s.items ∧ q.2 ∈ s.categories
            ∧ q.2.id = q.1.category_id)
        ∧ (DBManager.get_latest_items s num).1
          = l.map (fun q => (q.1.id, ⟨q.1.name, q.2.id, q.2.name⟩)))
    ∧ (s.items = [] → (DBManager.get_latest_items s num).1 = []) := by
  constructor
  · refine ⟨(List.insertionSort DBManager.latestLe
        (DBManager.joined s)).take num, ?_, ?_, ?_, rfl⟩
    · exact List.Pairwise.sublist (List.take_sublist _ _)
        (List.sorted_insertionSort DBManager.latestLe _)
    · rw [List.length_take]
      exact Nat.min_le_left _ _
    · intro q hq
      have hq3 : q ∈ DBManager.joined s :=
        (List.perm_insertionSort DBManager.latestLe _).subset
          (List.mem_of_mem_take hq)
      obtain ⟨i, hi, hqi⟩ := List.mem_flatMap.mp hq3
      obtain ⟨c, hc, hce⟩ := List.mem_map.mp hqi
      have hcf := List.mem_filter.mp hc
      rw [← hce]
      refine ⟨hi, hcf.1, ?_⟩
      simpa using hcf.2
  · intro he
    simp [DBManager.get_latest_items, DBManager.joined, he]

/-- Witness for C10 on the empty database. -/
theorem C10_get_latest_items_ordered_witness :
    (DBManager.get_latest_items DBState.init 5).1 = [] :=
  (C10_get_latest_items_ordered DBState.init 5).2 (by decide)

/-- Counterexample for C1 as stated: in the example database item 1 is
owned by user 1, yet `ContentManager.edit_item` called by user 1 with
target category 2 (owned by user 2) performs no mutation and only
flashes a message, although the caller's user id equals the one stored
on the targeted record — the claimed "exactly when" fails; the
underlying `DBManager.edit_item` call would have changed the state. -/
theorem C1_edit_item_counterexample :
    (DBManager.get_item exState 1).1 = some ⟨1, "i", "e", 0, 1, 1⟩
      ∧ (⟨1, "i", "e", 0, 1, 1⟩ : ItemView).user_id = 1
      ∧ ContentManager.edit_item exState 1 "z" "w" 2 1
        = (["You can only add items to categories you created."],
            exState)
      ∧ (DBManager.edit_item exState 1 "z" "w" 2).2 ≠ exState :=
  ⟨by decide, by decide, by decide, by decide⟩

/-- C1 (amended): each guarded ContentManager operation on an existing
record flashes exactly one refusal message and leaves the state
untouched when the caller is not the owner, and delegates to the
corresponding DBManager operation when the caller is the owner — for
`edit_item` only when the caller additionally owns the existing target
category: with the item owner matching but the target category missing
or owned by another user, the call again only flashes one message and
leaves the state unchanged. -/
theorem C1_ownership_enforced (s : DBState) (name descr : String)
    (category_id item_id user_id : Nat) :
    (∀ cv, (DBManager.get_category s category_id).1 = some cv →
      (cv.user_id ≠ user_id →
        ContentManager.edit_category s category_id name user_id
          = (["Only the original creator can edit a category."], s))
      ∧ (cv.user_id = user_id →
        ContentManager.edit_category s category_id name user_id
          = ([(DBManager.edit_category s category_id name).1],
             (DBManager.edit_category s category_id name).2)))
    ∧ (∀ cv, (DBManager.get_category s category_id).1 = some cv →
      (cv.user_id ≠ user_id →
        ContentManager.delete_category s category_id user_id
          = (["Only the original creator can delete a category."], s))
      ∧ (cv.user_id = user_id →
        ContentManager.delete_category s category_id user_id
          = ([(DBManager.delete_category s category_id).1],
             (DBManager.delete_category s category_id).2)))
    ∧ (∀ cv, (DBManager.get_category s category_id).1 = some cv →
      (cv.user_id ≠ user_id →
        ContentManager.add_item s name descr category_id user_id
          = ((["You can only add items to categories you created."],
              none), s))
      ∧ (cv.user_id = user_id →
        ContentManager.add_item s name descr category_id user_id
          = (([(DBManager.add_item s name descr category_id
                  user_id).1.2],
              (DBManager.add_item s name descr category_id
                  user_id).1.1),
             (DBManager.add_item s name descr category_id user_id).2)))
    ∧ (∀ iv, (DBManager.get_item s item_id).1 = some iv →
      (iv.user_id ≠ user_id →
        ContentManager.edit_item s item_id name descr category_id
            user_id
          = (["Only the original creator can edit an item."], s))
      ∧ (iv.user_id = user_id →
        ((DBManager.get_category s category_id).1 = none →
          ContentManager.edit_item s item_id name descr category_id
              user_id
            = (["Invalid category."], s))
        ∧ (∀ cv, (DBManager.get_category s category_id).1 = some cv →
          (cv.user_id ≠ user_id →
            ContentManager.edit_item s item_id name descr category_id
                user_id
              = (["You can only add items to categories you created."],
                  s))
          ∧ (cv.user_id = user_id →
            ContentManager.edit_item s item_id name descr category_id
                user_id
              = ([(DBManager.edit_item s item_id name descr
                    category_id).1],
                 (DBManager.edit_item s item_id name descr
                    category_id).2)))))
    ∧ (∀ iv, (DBManager.get_item s item_id).1 = some iv →
      (iv.user_id ≠ user_id →
        ContentManager.delete_item s item_id user_id
          = (["Only the original creator can delete an item."], s))
      ∧ (iv.user_id = user_id →
        ContentManager.delete_item s item_id user_id
          = ([(DBManager.delete_item s item_id).1],
             (DBManager.delete_item s item_id).2))) := by
  refine ⟨?_, ?_, ?_, ?_, ?_⟩
  · intro cv h
    constructor
    · intro hne
      unfold ContentManager.edit_category
      rw [h]
      dsimp only
      rw [if_pos (by simpa using hne)]
    · intro heq
      unfold ContentManager.edit_category
      rw [h]
      dsimp only
      rw [if_neg (by simp [heq])]
  · intro cv h
    constructor
    · intro hne
      unfold ContentManager.delete_category
      rw [h]
      dsimp only
      rw [if_pos (by simpa using hne)]
    · intro heq
      unfold ContentManager.delete_category
      rw [h]
      dsimp only
      rw [if_neg (by simp [heq])]
  · intro cv h
    constructor
    · intro hne
      unfold ContentManager.add_item
      rw [h]
      dsimp only
      rw [if_pos (by simpa using hne)]
    · intro heq
      unfold ContentManager.add_item
      rw [h]
      dsimp only
      rw [if_neg (by simp [heq])]
  · intro iv h
    constructor
    · intro hne
      unfold ContentManager.edit_item
      rw [h]
      dsimp only
      rw [if_pos (by simpa using hne)]
    · intro heq
      constructor
      · intro hnone
        unfold ContentManager.edit_item
        rw [h]
        dsimp only
        rw [if_neg (by simp [heq])]
        rw [hnone]
      · intro cv hcv
        constructor
        · intro hcne
          unfold ContentManager.edit_item
          rw [h]
          dsimp only
          rw [if_neg (by simp [heq])]
          rw [hcv]
          dsimp only
          rw [if_pos (by simpa using hcne)]
        · intro hcveq
          unfold ContentManager.edit_item
          rw [h]
          dsimp only
          rw [if_neg (by simp [heq])]
          rw [hcv]
          dsimp only
          rw [if_neg (by simp [hcveq])]
  · intro iv h
    constructor
    · intro hne
      unfold ContentManager.delete_item
      rw [h]
      dsimp only
      rw [if_pos (by simpa using hne)]
    · intro heq
      unfold ContentManager.delete_item
      rw [h]
      dsimp only
      rw [if_neg (by simp [heq])]

/-- Witness for C1: user 2 may not edit category 1 of the example
database; the call only flashes a refusal and changes nothing. -/
theorem C1_ownership_enforced_witness :
    ContentManager.edit_category exState 1 "z" 2
      = (["Only the original creator can edit a category."], exState) :=
  ((C1_ownership_enforced exState "z" "w" 1 1 2).1 ⟨1, "c", 1⟩
    (by decide)).1 (by decide)

/-- Witness for C5: a name that is empty after tag stripping makes
`add_category` return the invalid-name sentinel unchanged. -/
theorem C5_errors_caught_return_sentinels_witness :
    DBManager.add_category exState "<b></b>" 1
      = ((none, "Invalid category name."), exState) :=
  (C5_errors_caught_return_sentinels exState "<b></b>" "d" "a" 1 1 1
    1 none).2.1 (by decide)

/-- Witness for C6: deleting a nonexistent category (the failing
`one()` raises) leaves the example database unchanged. -/
theorem C6_failed_operation_preserves_state_witness :
    (DBManager.delete_category exState 7).2 = exState :=
  ((C6_failed_operation_preserves_state
      exState "n" "d" "a" 7 1 1).2.2.2.2.1) (by decide)
